import Mathlib

/-!
# Verification of the chriseon pipeline engine against its specification

This file gives a shallow embedding of the chriseon repository:

* the web client helpers that are present verbatim in the corpus
  (`apps/web/src/lib/api.ts` shown in the repository README, and
  `apps/web/src/app/runs/[runId]/page.tsx`), and
* the pipeline execution engine (orchestrator, stage prompt builder,
  isolated invocation sandbox, scoring engine, progress event bus) whose
  Python sources (`services/worker/worker/jobs.py`,
  `services/worker/worker/scoring.py`, `services/api/app/events.py`) are not
  part of the corpus; those parts are modelled from the specification, as
  marked on each definition.

Strings are embedded as Lean `String`; substring containment is list-infix
containment on the underlying character lists.  JavaScript numbers are
embedded as rationals plus an explicit NaN value where NaN behaviour
matters.
-/

/-- `strContains s pat` holds when `pat` occurs contiguously inside `s`
(the JS `String.prototype.includes` / "substring of" relation). -/
def strContains (s pat : String) : Prop := pat.data <:+: s.data

instance (s pat : String) : Decidable (strContains s pat) :=
  inferInstanceAs (Decidable (pat.data <:+: s.data))

/-- A string occurs inside any concatenation that displays it in the middle. -/
theorem strContains_append_mid (a b c : String) : strContains (a ++ b ++ c) b := by
  refine ⟨a.data, c.data, ?_⟩
  simp [String.data_append]

/-- Containment is transitive. -/
theorem strContains_trans {s t u : String} (h1 : strContains t u) (h2 : strContains s t) :
    strContains s u :=
  List.IsInfix.trans h1 h2

/-! ## Web client HTTP helper (`apps/web/src/lib/api.ts`, shown in README.md) -/

/-- A JavaScript exception value as far as the `http` helper can distinguish
them: a `TypeError` (what a browser throws for network/CORS failures of
`fetch`), a plain `Error` carrying a message, or any other thrown value. -/
inductive JsError where
  | typeError (msg : String)
  | error (msg : String)
  | other (tag : String)
deriving DecidableEq

/-- The part of a `fetch` `Response` the helper consults: `ok`, `status`,
the body as text, and the outcome of `res.json()` (whose parsed value we
abstract as a string payload). -/
structure FetchResponse where
  ok : Bool
  status : Nat
  bodyText : String
  bodyJson : Except JsError String

/-- The outcome of the awaited `fetch` call: a resolved response or a
rejection with a thrown value. -/
inductive FetchOutcome where
  | resolved (r : FetchResponse)
  | rejected (e : JsError)

/-- The default API base used when `NEXT_PUBLIC_API_BASE_URL` is unset. -/
def defaultApiBase : String := "http://localhost:8090"

/-- The slash character as a string. -/
def slashStr : String := "/"

/-- `v.replace(/\/$/, "")`: drop a single trailing slash. -/
def dropTrailingSlash (v : String) : String :=
  if v.endsWith slashStr then v.dropRight 1 else v

/-- `API_BASE = process.env.NEXT_PUBLIC_API_BASE_URL?.replace(/\/$/,"") || "http://localhost:8090"`.
An unset variable, or one that becomes the empty (falsy) string, yields the
default. -/
def apiBase (envVar : Option String) : String :=
  match envVar with
  | none => defaultApiBase
  | some v => if dropTrailingSlash v = "" then defaultApiBase else dropTrailingSlash v

/-- Message produced for a non-ok response: `text || Request failed (status)`. -/
def httpStatusMsg (status : Nat) (text : String) : String :=
  if text = "" then "Request failed (" ++ toString status ++ ")" else text

/-- Head of the network-failure message. -/
def reachHead : String := "Failed to reach API at "

/-- Tail of the network-failure message. -/
def reachTail : String := ". Make sure chriseon API is running and accessible (CORS)."

/-- Message produced when the catch block sees a `TypeError`. -/
def httpReachMsg (base : String) : String :=
  reachHead ++ base ++ reachTail

/-- The body of the `try` block of `http`: await fetch; on a resolved
response, throw `Error(text || Request failed (status))` when `!res.ok`,
otherwise return `res.json()`. -/
def httpTryBody (out : FetchOutcome) : Except JsError String :=
  match out with
  | .rejected e => .error e
  | .resolved r =>
      if r.ok then r.bodyJson
      else .error (.error (httpStatusMsg r.status r.bodyText))

/-- The `catch` block of `http`: a `TypeError` is replaced by an `Error`
naming the API base; everything else is rethrown unchanged. -/
def httpCatch (base : String) (e : JsError) : JsError :=
  match e with
  | .typeError _ => .error (httpReachMsg base)
  | e => e

/-- The `http` helper of `apps/web/src/lib/api.ts`: the try body with the
catch transformation applied to anything it throws. -/
def http (base : String) (out : FetchOutcome) : Except JsError String :=
  match httpTryBody out with
  | .ok v => .ok v
  | .error e => .error (httpCatch base e)

/-! ## `clamp01` and `ScoreBar` (`apps/web/src/app/runs/[runId]/page.tsx`) -/

/-- A JavaScript number as far as `clamp01` distinguishes them: NaN or an
ordinary numeric value (embedded as a rational). -/
inductive JSNum where
  | nan
  | num (q : ℚ)
deriving DecidableEq

/-- `clamp01` from the run page: NaN maps to 0, negatives to 0, values
above 1 to 1, anything else to itself.  The result is always an ordinary
number, so we return the rational directly. -/
def clamp01 : JSNum → ℚ
  | .nan => 0
  | .num q => if q < 0 then 0 else if q > 1 then 1 else q

/-- `Math.round`: round half away from zero toward positive infinity
(JavaScript rounds `x` to `⌊x + 0.5⌋` for the values in play here). -/
def jsRound (q : ℚ) : ℤ := ⌊q + 1/2⌋

/-- The percentage width computed by `ScoreBar`:
`Math.round(clamp01(value) * 100)`. -/
def scoreBarPct (v : JSNum) : ℤ := jsRound (clamp01 v * 100)

/-! ## Pipeline engine (modelled from the spec; worker sources absent) -/

/-- Modelled from the spec: the failure taxonomy of §7 for sandboxed stage
attempts (`TimeoutError`, `ProviderCrash`, `CredentialError`); the worker
source `services/worker/worker/jobs.py` is not in the corpus. -/
inductive FailureKind where
  | timeout
  | providerCrash
  | credentialError
deriving DecidableEq

/-- Modelled from the spec: the outcome the orchestrator observes for one
stage attempt — generated text, or a structured failure with a detail
string; `services/worker/worker/jobs.py` is not in the corpus. -/
inductive StageOutcome where
  | success (text : String)
  | failure (kind : FailureKind) (detail : String)
deriving DecidableEq

/-- Modelled from the spec: the fixed marker phrase opening the structured
error string of each failure class (§4.2/§7); the crash wording matches the
`jobs.py` snippet quoted in CODE_REVIEW.md
(`provider process exited unexpectedly (exitcode=...)`). -/
def failureMarker : FailureKind → String
  | .timeout => "provider call timed out after "
  | .providerCrash => "provider process exited unexpectedly (exitcode="
  | .credentialError => "credential resolution failed: "

/-- Modelled from the spec: the structured error string recorded on an
artifact for a failed stage (§4.2 step 7); `jobs.py` is not in the corpus,
and the crash branch follows the snippet quoted in CODE_REVIEW.md. -/
def errString (k : FailureKind) (d : String) : String :=
  match k with
  | .timeout => failureMarker .timeout ++ d ++ "s"
  | .providerCrash => failureMarker .providerCrash ++ d ++ ")"
  | .credentialError => failureMarker .credentialError ++ d

/-- Modelled from the spec: an Artifact record (§3) — pass index, assigned
role, output text, optional error string; the store schema sources are not
in the corpus. -/
structure Artifact where
  passIndex : Nat
  role : String
  text : String
  error : Option String
deriving DecidableEq

/-- Modelled from the spec: the role assigned per pass (§3, MODEL_SELECTION.md):
pass 1 `draft`, pass 2 `refine`, pass 3 `synthesis`. -/
def roleOf (i : Nat) : String :=
  if i = 1 then "draft" else if i = 2 then "refine" else "synthesis"

/-- The pass indices of the fixed three-stage pipeline. -/
def passes : List Nat := [1, 2, 3]

/-- `maxPasses` from `apps/web/src/app/runs/[runId]/page.tsx`: the MVP
generates passes 1..3. -/
def maxPasses : Nat := 3

/-- "does artifact for (run, pass_index) already exist" lookup (§6). -/
def findArtifact (arts : List Artifact) (i : Nat) : Option Artifact :=
  arts.find? (fun a => a.passIndex == i)

/-- Modelled from the spec: the fixed Refine template (§4.3) wrapped around
the original query and the prior stage text; `jobs.py` is not in the
corpus (MODEL_SELECTION.md documents the same template). -/
def refineHead : String := "Original request: "

/-- Middle section of the Refine template. -/
def refineMid : String := "\n\nInitial draft to improve:\n"

/-- Trailing instruction of the Refine template. -/
def refineTail : String :=
  "\n\nAnalyze the draft and provide an improved, refined version. Address gaps, improve clarity, ensure completeness."

/-- Middle section of the Validate template. -/
def validateMid : String := "\n\nRefined response to validate:\n"

/-- Trailing instruction of the Validate template. -/
def validateTail : String :=
  "\n\nReview against the original request. Verify accuracy, completeness, structure. Provide the final, polished version."

/-- Modelled from the spec: the Refine prompt (§4.3). -/
def refinePrompt (query prior : String) : String :=
  refineHead ++ query ++ refineMid ++ prior ++ refineTail

/-- Modelled from the spec: the Validate prompt (§4.3). -/
def validatePrompt (query prior : String) : String :=
  refineHead ++ query ++ validateMid ++ prior ++ validateTail

/-- Modelled from the spec: the Stage Prompt Builder (§4.3) — the Draft
stage is the query verbatim, Refine and Validate wrap the determined input
text in their fixed templates; `jobs.py` is not in the corpus. -/
def buildPrompt (i : Nat) (query input : String) : String :=
  if i = 1 then query
  else if i = 2 then refinePrompt query input
  else validatePrompt query input

/-- Modelled from the spec: the input-text rule of §4.2 step 1 — stage 1
uses the original query; later stages use the immediately preceding
artifact text if it exists and has no error, else fall back to the
original query. -/
def stageInput (query : String) (arts : List Artifact) (i : Nat) : String :=
  if i = 1 then query
  else
    match findArtifact arts (i - 1) with
    | some a => if a.error = none then a.text else query
    | none => query

/-- The prompt the orchestrator builds for stage `i` given the artifacts
recorded so far. -/
def stagePrompt (query : String) (arts : List Artifact) (i : Nat) : String :=
  buildPrompt i query (stageInput query arts i)

/-- Modelled from the spec: the progress-event catalogue of §3; the event
bus source is not in the corpus (the run page consumes exactly these
types). -/
inductive Event where
  | runStarted
  | runCompleted
  | planned (i : Nat)
  | started (i : Nat)
  | chunk (i : Nat) (s : String)
  | progress (i : Nat)
  | created (i : Nat)
  | errored (i : Nat)
  | scoreStarted (i : Nat)
  | scoreCreated (i : Nat)
deriving DecidableEq

/-- The pass index an event belongs to, if any. -/
def eventPass : Event → Option Nat
  | .planned i => some i
  | .started i => some i
  | .chunk i _ => some i
  | .progress i => some i
  | .created i => some i
  | .errored i => some i
  | .scoreStarted i => some i
  | .scoreCreated i => some i
  | _ => none

/-- The lifecycle phase of a per-pass event: planned 0, started 1,
chunk/progress 2, created/errored 3, score.started 4, score.created 5. -/
def phase : Event → Nat
  | .planned _ => 0
  | .started _ => 1
  | .chunk _ _ => 2
  | .progress _ => 2
  | .created _ => 3
  | .errored _ => 3
  | .scoreStarted _ => 4
  | .scoreCreated _ => 5
  | _ => 0

/-- Terminal artifact events: `artifact.created` and `artifact.error`. -/
def isTerminal : Event → Bool
  | .created _ => true
  | .errored _ => true
  | _ => false

/-- The streamed text carried by a chunk event. -/
def chunkText : Event → Option String
  | .chunk _ s => some s
  | _ => none

/-- The events of a trace that belong to pass `i`. -/
def passEvents (tr : List Event) (i : Nat) : List Event :=
  tr.filter (fun e => eventPass e == some i)

/-- Modelled from the spec: the environment one `execute` invocation runs
against — per pass, the sandbox outcome and the streamed chunks in arrival
order, plus whether the store is available; the worker sources are not in
the corpus. -/
structure Env where
  outcome : Nat → StageOutcome
  chunks : Nat → List String
  storeOk : Bool

/-- Modelled from the spec: one stage attempt (§4.2 steps 4-7) — on
success, persist the artifact and publish planned/started, the chunks,
created and the score events; on a sandbox failure, persist an error
artifact and publish `artifact.error` after the streamed chunks; on a
credential-resolution failure, record the error artifact with no model
call attempted. -/
def execStage (env : Env) (i : Nat) : Artifact × List Event :=
  match env.outcome i with
  | .success t =>
      (⟨i, roleOf i, t, none⟩,
        [.planned i, .started i] ++ (env.chunks i).map (Event.chunk i)
          ++ [.created i, .scoreStarted i, .scoreCreated i])
  | .failure .credentialError d =>
      (⟨i, roleOf i, "", some (errString .credentialError d)⟩, [.errored i])
  | .failure k d =>
      (⟨i, roleOf i, "", some (errString k d)⟩,
        [.planned i, .started i] ++ (env.chunks i).map (Event.chunk i) ++ [.errored i])

/-- The evolving result of walking the stages: recorded artifacts,
published events, and the prompts built for the stages that actually
executed (pass index with prompt text). -/
structure ExecState where
  artifacts : List Artifact
  events : List Event
  promptLog : List (Nat × String)
deriving DecidableEq

/-- Modelled from the spec: the orchestrator walk (§4.2) over a list of
pass indices — a stage whose artifact already exists is skipped (idempotent
resumption, an errored stage is not retried); otherwise the prompt is
built from the current state and the stage attempt is run, its artifact
appended before the next stage starts. -/
def execFrom (env : Env) (query : String) : List Artifact → List Nat → ExecState
  | arts, [] => ⟨arts, [], []⟩
  | arts, i :: rest =>
      if (findArtifact arts i).isSome then execFrom env query arts rest
      else
        let p := stagePrompt query arts i
        let a := (execStage env i).1
        let evs := (execStage env i).2
        let r := execFrom env query (arts ++ [a]) rest
        ⟨r.artifacts, evs ++ r.events, (i, p) :: r.promptLog⟩

/-- Terminal run status `completed`. -/
def statusCompleted : String := "completed"

/-- Terminal run status `failed`. -/
def statusFailed : String := "failed"

/-- The outcome of one `execute(run)` invocation. -/
structure RunResult where
  artifacts : List Artifact
  events : List Event
  promptLog : List (Nat × String)
  status : String

/-- Modelled from the spec: `execute(run) -> terminal status` (§4.1/§4.2
step 8) — when the store is available the three stages are walked in order
and the run completes (stage errors are data, not orchestrator failure);
a store failure is the only condition escalating the run to `failed`. -/
def execute (env : Env) (query : String) (arts : List Artifact) : RunResult :=
  if env.storeOk then
    let r := execFrom env query arts passes
    ⟨r.artifacts, Event.runStarted :: r.events ++ [Event.runCompleted], r.promptLog,
      statusCompleted⟩
  else
    ⟨arts, [Event.runStarted], [], statusFailed⟩

/-! ## Isolated invocation sandbox (modelled from the spec, §4.2/§5.5) -/

/-- Modelled from the spec: the behaviour of one provider-adapter call as
the sandbox observes it — a wall-clock duration and either returned text
or a crash with an exit code; the sandbox source
(`jobs.py` multiprocessing wrapper) is not in the corpus. -/
structure AdapterCall where
  duration : Nat
  returns : Option String
  exitcode : Nat

/-- What `run_isolated` hands back: a structured outcome value and the
wall-clock time at which it was produced. -/
structure SandboxReturn where
  outcome : StageOutcome
  elapsed : Nat

/-- Modelled from the spec: the bounded termination overhead the sandbox
adds when it forcibly kills a call at the timeout. -/
def SANDBOX_OVERHEAD : Nat := 1

/-- Modelled from the spec: `run_isolated(adapter_call, timeout)` (§4.2) —
a call exceeding the wall-clock timeout is forcibly terminated and yields
`Failure{kind=Timeout}` at `timeout + SANDBOX_OVERHEAD`; an abnormal
termination yields `Failure{kind=ProviderCrash, detail=exit code}`; the
sandbox source is not in the corpus. -/
def run_isolated (call : AdapterCall) (timeout : Nat) : SandboxReturn :=
  if timeout < call.duration then
    ⟨.failure .timeout (toString timeout), timeout + SANDBOX_OVERHEAD⟩
  else
    match call.returns with
    | some t => ⟨.success t, call.duration⟩
    | none => ⟨.failure .providerCrash (toString call.exitcode), call.duration⟩

/-! ## Scoring engine (modelled from the spec, §4.4) -/

/-- Modelled from the spec: the weights of the four scoring dimensions;
`services/worker/worker/scoring.py` is not in the corpus, the spec fixes
only that the weights sum to 1. -/
structure ScoreWeights where
  alignment : ℚ
  completeness : ℚ
  consensus : ℚ
  factual : ℚ

/-- Modelled from the spec: the per-dimension values of one artifact score —
alignment and completeness always computed, consensus and factual accuracy
possibly null (§4.4). -/
structure ScoreDims where
  alignment : ℚ
  completeness : ℚ
  consensus : Option ℚ
  factual : Option ℚ

/-- The weight a nullable dimension contributes: its weight when present,
zero when null. -/
def optWeight (w : ℚ) (d : Option ℚ) : ℚ :=
  match d with
  | some _ => w
  | none => 0

/-- The weighted value a nullable dimension contributes. -/
def optContrib (w : ℚ) (d : Option ℚ) : ℚ :=
  match d with
  | some x => w * x
  | none => 0

/-- The total weight of the non-null dimensions. -/
def usedWeight (w : ScoreWeights) (d : ScoreDims) : ℚ :=
  w.alignment + w.completeness + optWeight w.consensus d.consensus + optWeight w.factual d.factual

/-- The weighted sum over the non-null dimensions. -/
def weightedSum (w : ScoreWeights) (d : ScoreDims) : ℚ :=
  w.alignment * d.alignment + w.completeness * d.completeness
    + optContrib w.consensus d.consensus + optContrib w.factual d.factual

/-- Modelled from the spec: `Score.total` (§4.4) — the weighted average of
the non-null dimensions, the weights renormalized over the dimensions in
use; `scoring.py` is not in the corpus. -/
def scoreTotal (w : ScoreWeights) (d : ScoreDims) : ℚ :=
  weightedSum w d / usedWeight w d

/-! ## Structural lemmas about the orchestrator walk -/

/-- The artifact a stage attempt records carries the pass index of that stage. -/
@[simp] theorem execStage_passIndex (env : Env) (i : Nat) :
    ((execStage env i).1).passIndex = i := by
  cases h : env.outcome i with
  | success t => simp [execStage, h]
  | failure k d => cases k <;> simp [execStage, h]

/-- A failed stage attempt records an empty text and the structured error
string. -/
theorem execStage_failure (env : Env) (i : Nat) (k : FailureKind) (d : String)
    (h : env.outcome i = .failure k d) :
    (execStage env i).1 = ⟨i, roleOf i, "", some (errString k d)⟩ := by
  cases k <;> simp [execStage, h]

/-- Every event a stage attempt publishes belongs to that pass. -/
theorem execStage_events_pass (env : Env) (i : Nat) :
    ∀ e ∈ (execStage env i).2, eventPass e = some i := by
  intro e he
  cases h : env.outcome i with
  | success t =>
      simp [execStage, h] at he
      rcases he with he | he | ⟨s, _, he⟩ | he | he | he <;> subst he <;> rfl
  | failure k d =>
      cases k <;> simp [execStage, h] at he
      case timeout =>
        rcases he with he | he | ⟨s, _, he⟩ | he <;> subst he <;> rfl
      case providerCrash =>
        rcases he with he | he | ⟨s, _, he⟩ | he <;> subst he <;> rfl
      case credentialError => subst he; rfl

/-- Appending an artifact of a different pass does not change a lookup. -/
theorem findArtifact_append (arts : List Artifact) (a : Artifact) (j : Nat)
    (h : a.passIndex ≠ j) :
    findArtifact (arts ++ [a]) j = findArtifact arts j := by
  have hb : (a.passIndex == j) = false := beq_eq_false_iff_ne.mpr h
  unfold findArtifact
  induction arts with
  | nil => simp [List.find?, hb]
  | cons b l ih =>
      simp only [List.cons_append, List.find?]
      cases hbj : b.passIndex == j <;> simp [hbj, ih]

/-- A missing lookup means no recorded artifact carries that pass index. -/
theorem findArtifact_none {arts : List Artifact} {i : Nat}
    (h : findArtifact arts i = none) : ∀ a ∈ arts, a.passIndex ≠ i := by
  intro a ha
  have := List.find?_eq_none.mp h a ha
  simpa using this

/-- The walk only appends: the recorded artifacts stay as a prefix, and the
pass indices of the appended artifacts are exactly the stages whose prompts
were built. -/
theorem execFrom_arts (env : Env) (q : String) :
    ∀ (l : List Nat) (arts : List Artifact),
    ∃ extra, (execFrom env q arts l).artifacts = arts ++ extra
      ∧ extra.map (fun a => a.passIndex) = (execFrom env q arts l).promptLog.map Prod.fst := by
  intro l
  induction l with
  | nil => intro arts; exact ⟨[], by simp [execFrom], by simp [execFrom]⟩
  | cons i rest ih =>
      intro arts
      cases hfa : findArtifact arts i with
      | some a => simpa [execFrom, hfa] using ih arts
      | none =>
          obtain ⟨extra, h1, h2⟩ := ih (arts ++ [(execStage env i).1])
          exact ⟨(execStage env i).1 :: extra, by simp [execFrom, hfa, h1],
            by simp [execFrom, hfa, h2]⟩

/-- The stages whose prompts are built are exactly the pipeline stages with
no artifact already recorded (idempotent resumption, §4.1). -/
theorem execFrom_log (env : Env) (q : String) :
    ∀ (l : List Nat), l.Nodup → ∀ (arts : List Artifact),
    (execFrom env q arts l).promptLog.map Prod.fst
      = l.filter (fun i => (findArtifact arts i).isNone) := by
  intro l
  induction l with
  | nil => intro _ arts; simp [execFrom]
  | cons i rest ih =>
      intro hnd arts
      have hi : i ∉ rest := (List.nodup_cons.mp hnd).1
      have hrest : rest.Nodup := (List.nodup_cons.mp hnd).2
      cases hfa : findArtifact arts i with
      | some a =>
          rw [List.filter_cons]
          simp [execFrom, hfa, ih hrest arts]
      | none =>
          rw [List.filter_cons]
          simp only [execFrom, hfa, Option.isSome_none, Bool.false_eq_true, if_false,
            List.map_cons, Option.isNone_none, if_true]
          rw [ih hrest (arts ++ [(execStage env i).1])]
          congr 1
          apply List.filter_congr
          intro j hj
          have hij : j ≠ i := fun hji => hi (hji ▸ hj)
          rw [findArtifact_append _ _ _ (by simpa using fun hc => hij hc.symm)]

/-- The walk preserves uniqueness of pass indices: a stage is only executed
when no artifact for it exists, and its artifact carries the index of
that stage. -/
theorem execFrom_nodup (env : Env) (q : String) :
    ∀ (l : List Nat) (arts : List Artifact),
    ((arts.map fun a => a.passIndex).Nodup) →
    (((execFrom env q arts l).artifacts.map fun a => a.passIndex).Nodup) := by
  intro l
  induction l with
  | nil => intro arts h; simpa [execFrom] using h
  | cons i rest ih =>
      intro arts h
      cases hfa : findArtifact arts i with
      | some a => simpa [execFrom, hfa] using ih arts h
      | none =>
          simp only [execFrom, hfa, Option.isSome_none, Bool.false_eq_true, if_false]
          apply ih
          rw [List.map_append]
          simp only [List.map_cons, List.map_nil, execStage_passIndex]
          rw [List.nodup_append]
          refine ⟨h, by simp, ?_⟩
          intro x hx
          simp only [List.mem_singleton]
          rcases List.mem_map.mp hx with ⟨b, hb, hbx⟩
          exact fun hxi => findArtifact_none hfa b hb (hbx ▸ hxi)

/-- Every pass index in the result of the walk comes from the recorded artifacts
or the walked stages. -/
theorem execFrom_indices_subset (env : Env) (q : String) :
    ∀ (l : List Nat) (arts : List Artifact) (x : Nat),
    x ∈ ((execFrom env q arts l).artifacts.map fun a => a.passIndex) →
    x ∈ (arts.map fun a => a.passIndex) ++ l := by
  intro l
  induction l with
  | nil => intro arts x hx; simpa [execFrom] using hx
  | cons i rest ih =>
      intro arts x hx
      cases hfa : findArtifact arts i with
      | some a =>
          have := ih arts x (by simpa [execFrom, hfa] using hx)
          simp only [List.mem_append, List.mem_cons] at this ⊢
          tauto
      | none =>
          simp only [execFrom, hfa, Option.isSome_none, Bool.false_eq_true, if_false] at hx
          have := ih (arts ++ [(execStage env i).1]) x hx
          simp only [List.map_append, List.map_cons, List.map_nil, execStage_passIndex,
            List.mem_append, List.mem_cons, List.mem_singleton, List.not_mem_nil] at this ⊢
          tauto

/-- A walked stage with no recorded artifact contributes the artifact of
its attempt to the result. -/
theorem execFrom_mem (env : Env) (q : String) :
    ∀ (l : List Nat) (arts : List Artifact) (i : Nat),
    i ∈ l → findArtifact arts i = none →
    (execStage env i).1 ∈ (execFrom env q arts l).artifacts := by
  intro l
  induction l with
  | nil => intro arts i hi; exact absurd hi (List.not_mem_nil i)
  | cons j rest ih =>
      intro arts i hi hnone
      by_cases hij : i = j
      · subst hij
        simp only [execFrom, hnone, Option.isSome_none, Bool.false_eq_true, if_false]
        obtain ⟨extra, he, -⟩ := execFrom_arts env q rest (arts ++ [(execStage env i).1])
        rw [he]
        simp
      · have hirest : i ∈ rest := (List.mem_cons.mp hi).resolve_left hij
        cases hfa : findArtifact arts j with
        | some a => simpa [execFrom, hfa] using ih arts i hirest hnone
        | none =>
            simp only [execFrom, hfa, Option.isSome_none, Bool.false_eq_true, if_false]
            apply ih _ i hirest
            rw [findArtifact_append _ _ _ (by simpa using fun hc => hij hc.symm)]
            exact hnone

/-- The published events are the concatenation of the event blocks of the
executed stages, in stage order. -/
theorem execFrom_events (env : Env) (q : String) :
    ∀ (l : List Nat) (arts : List Artifact),
    (execFrom env q arts l).events
      = (((execFrom env q arts l).promptLog.map Prod.fst).map
          fun i => (execStage env i).2).flatten := by
  intro l
  induction l with
  | nil => intro arts; simp [execFrom]
  | cons i rest ih =>
      intro arts
      cases hfa : findArtifact arts i with
      | some a => simpa [execFrom, hfa] using ih arts
      | none => simp [execFrom, hfa, ih (arts ++ [(execStage env i).1])]

/-! ## Event-trace lemmas -/

/-- A constant list is weakly sorted. -/
theorem pairwise_replicate_le (n a : Nat) :
    List.Pairwise (· ≤ ·) (List.replicate n a) := by
  induction n with
  | zero => exact List.Pairwise.nil
  | succ m ih =>
      rw [List.replicate_succ]
      exact List.Pairwise.cons
        (fun b hb => by rw [List.eq_of_mem_replicate hb]) ih

/-- The phase pattern of one stage block is weakly sorted: planned, started,
any number of chunks, then a tail of phases at least 3. -/
theorem pairwise_phase_block (n : Nat) (tail : List Nat)
    (htail : List.Pairwise (· ≤ ·) tail) (hge : ∀ b ∈ tail, 3 ≤ b) :
    List.Pairwise (· ≤ ·) (0 :: 1 :: (List.replicate n 2 ++ tail) : List Nat) := by
  refine List.Pairwise.cons (fun b _ => Nat.zero_le b) (List.Pairwise.cons ?_ ?_)
  · intro b hb
    rcases List.mem_append.mp hb with h | h
    · have := List.eq_of_mem_replicate h
      omega
    · have := hge b h
      omega
  · rw [List.pairwise_append]
    refine ⟨pairwise_replicate_le n 2, htail, ?_⟩
    intro a ha b hb
    have h2 := List.eq_of_mem_replicate ha
    have h3 := hge b hb
    omega

/-- Chunk events are transparent to `chunkText`. -/
theorem filterMap_chunkText_map (i : Nat) (xs : List String) :
    (xs.map (Event.chunk i)).filterMap chunkText = xs := by
  induction xs with
  | nil => rfl
  | cons x xs ih => simp [chunkText, ih]

/-- Chunk events are not terminal. -/
theorem filter_isTerminal_map (i : Nat) (xs : List String) :
    (xs.map (Event.chunk i)).filter isTerminal = [] := by
  induction xs with
  | nil => rfl
  | cons x xs ih => simp [isTerminal, ih]

/-- Chunk events all have streaming phase 2. -/
theorem map_phase_chunks (i : Nat) (xs : List String) :
    (xs.map (Event.chunk i)).map phase = List.replicate xs.length 2 := by
  induction xs with
  | nil => rfl
  | cons x xs ih => simp [phase, ih, List.replicate_succ]

/-- A block whose events all belong to pass `j` projects to a constant
pass-index sequence. -/
theorem filterMap_eventPass_const (j : Nat) (l : List Event)
    (h : ∀ e ∈ l, eventPass e = some j) :
    l.filterMap eventPass = List.replicate l.length j := by
  induction l with
  | nil => rfl
  | cons e l ih =>
      have he := h e (List.mem_cons_self e l)
      have ih2 := ih fun x hx => h x (List.mem_cons_of_mem _ hx)
      simp [List.filterMap_cons, he, ih2, List.replicate_succ]

/-- Filtering the block of a stage for its own pass keeps every event. -/
theorem passEvents_stage_self (env : Env) (i : Nat) :
    ((execStage env i).2).filter (fun e => eventPass e == some i) = (execStage env i).2 :=
  List.filter_eq_self.mpr fun e he => by
    rw [execStage_events_pass env i e he]; simp

/-- Filtering the block of another stage for pass `i` removes every event. -/
theorem passEvents_stage_other (env : Env) (i j : Nat) (hij : j ≠ i) :
    ((execStage env j).2).filter (fun e => eventPass e == some i) = [] :=
  List.filter_eq_nil_iff.mpr fun e he => by
    rw [execStage_events_pass env j e he]; simp [hij]

/-- On a fresh run with a working store, all three stages execute and the
trace is the run-start event, the three stage blocks in order, and the
run-completed event. -/
theorem runFresh_events (env : Env) (q : String) (hstore : env.storeOk = true) :
    (execute env q []).events
      = Event.runStarted
          :: ((execStage env 1).2 ++ ((execStage env 2).2 ++ ((execStage env 3).2
            ++ [Event.runCompleted]))) := by
  have hlog := execFrom_log env q passes (by decide) []
  have hfil : passes.filter (fun j => (findArtifact [] j).isNone) = passes := by decide
  have hev := execFrom_events env q passes []
  rw [hlog, hfil] at hev
  simp only [passes, List.map_cons, List.map_nil, List.flatten_cons, List.flatten_nil,
    List.append_nil] at hev
  simp only [execute, hstore, if_true, passes] at hev ⊢
  rw [hev]
  simp [List.append_assoc]

/-- For a fresh run, the events of pass `i` are exactly the block of stage `i`. -/
theorem passEvents_runFresh (env : Env) (q : String) (hstore : env.storeOk = true)
    (i : Nat) (hi : i ∈ passes) :
    passEvents (execute env q []).events i = (execStage env i).2 := by
  rw [passEvents, runFresh_events env q hstore]
  simp only [passes, List.mem_cons, List.not_mem_nil, or_false] at hi
  have hrs : ∀ j : Nat, (eventPass Event.runStarted == some j) = false := fun _ => rfl
  have hrc : ∀ j : Nat, (eventPass Event.runCompleted == some j) = false := fun _ => rfl
  rcases hi with hi | hi | hi <;> subst hi
  · rw [List.filter_cons_of_neg (by simp [hrs])]
    simp only [List.filter_append]
    rw [passEvents_stage_self env 1, passEvents_stage_other env 1 2 (by decide),
      passEvents_stage_other env 1 3 (by decide),
      List.filter_cons_of_neg (by simp [hrc])]
    simp
  · rw [List.filter_cons_of_neg (by simp [hrs])]
    simp only [List.filter_append]
    rw [passEvents_stage_self env 2, passEvents_stage_other env 2 1 (by decide),
      passEvents_stage_other env 2 3 (by decide),
      List.filter_cons_of_neg (by simp [hrc])]
    simp
  · rw [List.filter_cons_of_neg (by simp [hrs])]
    simp only [List.filter_append]
    rw [passEvents_stage_self env 3, passEvents_stage_other env 3 1 (by decide),
      passEvents_stage_other env 3 2 (by decide),
      List.filter_cons_of_neg (by simp [hrc])]
    simp

/-! ## Claim theorems: web client -/

/-- `clamp01` always lands in the unit interval. -/
theorem clamp01_mem (n : JSNum) : 0 ≤ clamp01 n ∧ clamp01 n ≤ 1 := by
  cases n with
  | nan => norm_num [clamp01]
  | num q =>
      simp only [clamp01]
      split_ifs with h1 h2
      · norm_num
      · norm_num
      · exact ⟨not_lt.mp h1, not_lt.mp h2⟩

/-- Claim C9: `clamp01` returns 0 on NaN, 0 below 0, 1 above 1 and the value
itself inside the unit interval; its result always lies in [0,1] and it is
idempotent, so every score-bar width `Math.round(clamp01(v) * 100)` the UI
renders lies between 0 and 100. -/
theorem clamp01_scorebar_spec (n : JSNum) (qneg qbig qin : ℚ)
    (hneg : qneg < 0) (hbig : 1 < qbig) (hin0 : 0 ≤ qin) (hin1 : qin ≤ 1) :
    clamp01 .nan = 0
    ∧ clamp01 (.num qneg) = 0
    ∧ clamp01 (.num qbig) = 1
    ∧ clamp01 (.num qin) = qin
    ∧ (0 ≤ clamp01 n ∧ clamp01 n ≤ 1)
    ∧ clamp01 (.num (clamp01 n)) = clamp01 n
    ∧ (0 ≤ scoreBarPct n ∧ scoreBarPct n ≤ 100) := by
  obtain ⟨hn0, hn1⟩ := clamp01_mem n
  refine ⟨rfl, ?_, ?_, ?_, ⟨hn0, hn1⟩, ?_, ?_, ?_⟩
  · simp [clamp01, hneg]
  · simp only [clamp01]
    rw [if_neg (by linarith), if_pos hbig]
  · simp only [clamp01]
    rw [if_neg (not_lt.mpr hin0), if_neg (not_lt.mpr hin1)]
  · have hx0 := hn0
    have hx1 := hn1
    generalize clamp01 n = x at hx0 hx1 ⊢
    simp only [clamp01]
    rw [if_neg (not_lt.mpr hx0), if_neg (not_lt.mpr hx1)]
  · rw [scoreBarPct, jsRound]
    refine Int.le_floor.mpr ?_
    push_cast
    linarith
  · rw [scoreBarPct, jsRound]
    have hle : clamp01 n * 100 + 1/2 ≤ (100 : ℚ) + 1/2 := by linarith
    have h2 : (⌊clamp01 n * 100 + 1/2⌋ : ℚ) ≤ 100 + 1/2 := le_trans (Int.floor_le _) hle
    have h3 : (⌊clamp01 n * 100 + 1/2⌋ : ℚ) < 101 := lt_of_le_of_lt h2 (by norm_num)
    have h4 : ⌊clamp01 n * 100 + 1/2⌋ < (101 : ℤ) := by exact_mod_cast h3
    omega

/-- Witness for C9 at concrete inputs. -/
theorem clamp01_scorebar_spec_witness :
    clamp01 .nan = 0
    ∧ clamp01 (.num (-2)) = 0
    ∧ clamp01 (.num 3) = 1
    ∧ clamp01 (.num (1/2)) = 1/2
    ∧ (0 ≤ clamp01 (.num (3/2)) ∧ clamp01 (.num (3/2)) ≤ 1)
    ∧ clamp01 (.num (clamp01 (.num (3/2)))) = clamp01 (.num (3/2))
    ∧ (0 ≤ scoreBarPct (.num (3/2)) ∧ scoreBarPct (.num (3/2)) ≤ 100) :=
  clamp01_scorebar_spec (.num (3/2)) (-2) 3 (1/2) (by norm_num) (by norm_num)
    (by norm_num) (by norm_num)

/-- `http` returns a payload exactly when the try body did. -/
theorem http_ok_iff (base : String) (out : FetchOutcome) (v : String) :
    http base out = .ok v ↔ httpTryBody out = .ok v := by
  cases h : httpTryBody out <;> simp [http, h]

/-- Claim C10: a non-ok HTTP status always makes the helper throw (it never
returns a value built from an error response); a fetch rejection with a
`TypeError` surfaces as an `Error` whose message contains the configured
API base URL; any other thrown error is rethrown unchanged. -/
theorem http_error_contract (base : String) (out : FetchOutcome) :
    (∀ r, out = .resolved r → r.ok = false →
        http base out = .error (.error (httpStatusMsg r.status r.bodyText)))
    ∧ (∀ v, http base out = .ok v →
        ∃ r, out = .resolved r ∧ r.ok = true ∧ r.bodyJson = .ok v)
    ∧ (∀ m, out = .rejected (.typeError m) →
        http base out = .error (.error (httpReachMsg base))
          ∧ strContains (httpReachMsg base) base)
    ∧ (∀ e, httpTryBody out = .error e → (∀ m, e ≠ .typeError m) →
        http base out = .error e) := by
  refine ⟨?_, ?_, ?_, ?_⟩
  · intro r hr hok
    subst hr
    simp [http, httpTryBody, hok, httpCatch]
  · intro v hv
    rw [http_ok_iff] at hv
    cases out with
    | rejected e => simp [httpTryBody] at hv
    | resolved r =>
        by_cases hok : r.ok
        · refine ⟨r, rfl, hok, ?_⟩
          simpa [httpTryBody, hok] using hv
        · simp [httpTryBody, hok] at hv
  · intro m hm
    subst hm
    refine ⟨by simp [http, httpTryBody, httpCatch], ?_⟩
    exact strContains_append_mid reachHead base reachTail
  · intro e he hne
    have : httpCatch base e = e := by
      cases e with
      | typeError m => exact absurd rfl (hne m)
      | error m => rfl
      | other t => rfl
    simp [http, he, this]

/-- A sample `TypeError` message a browser produces for a failed fetch. -/
def tErrMsg : String := "Failed to fetch"

/-- Witness for C10: the TypeError path at the default API base. -/
theorem http_error_contract_witness :
    http defaultApiBase (.rejected (.typeError tErrMsg))
        = .error (.error (httpReachMsg defaultApiBase))
    ∧ strContains (httpReachMsg defaultApiBase) defaultApiBase :=
  (http_error_contract defaultApiBase (.rejected (.typeError tErrMsg))).2.2.1 tErrMsg rfl

/-! ## Claim theorems: orchestrator -/

/-- Nodup pass indices drawn from the three pipeline stages bound the
artifact count by three. -/
theorem nodup_mem_passes_length {l : List Nat} (h : l.Nodup)
    (hs : ∀ x ∈ l, x ∈ passes) : l.length ≤ 3 := by
  have hcard : l.toFinset.card = l.length := List.toFinset_card_of_nodup h
  have hsub : l.toFinset ⊆ ({1, 2, 3} : Finset Nat) := by
    intro x hx
    have := hs x (List.mem_toFinset.mp hx)
    simpa [passes] using this
  have hle := Finset.card_le_card hsub
  have h3 : ({1, 2, 3} : Finset Nat).card = 3 := by decide
  omega

/-- With distinct pass indices, each pass matches at most one artifact. -/
theorem filter_passIndex_le_one {l : List Artifact}
    (h : (l.map fun a => a.passIndex).Nodup) (i : Nat) :
    (l.filter fun a => a.passIndex == i).length ≤ 1 := by
  rw [← List.countP_eq_length_filter]
  have hc : l.countP (fun a => a.passIndex == i)
      = (l.map fun a => a.passIndex).count i := by
    rw [List.count, List.countP_map]
    rfl
  rw [hc]
  exact List.nodup_iff_count_le_one.mp h i

/-- Claim C1: at most one artifact exists per (run, pass index), a completed run
holds at most `maxPasses` = 3 artifacts in total, and a failed stage
attempt is still recorded as a single artifact whose error string replaces
its text. -/
theorem artifact_uniqueness (env : Env) (q : String) (arts : List Artifact)
    (hnd : (arts.map fun a => a.passIndex).Nodup)
    (hmem : ∀ a ∈ arts, a.passIndex ∈ passes) :
    (∀ i, ((execute env q arts).artifacts.filter fun a => a.passIndex == i).length ≤ 1)
    ∧ (execute env q arts).artifacts.length ≤ maxPasses
    ∧ (∀ i k d, env.storeOk = true → i ∈ passes → findArtifact arts i = none →
        env.outcome i = .failure k d →
        ∃ a, a ∈ (execute env q arts).artifacts ∧ a.passIndex = i
          ∧ a.text = "" ∧ a.error = some (errString k d)) := by
  cases hst : env.storeOk with
  | false =>
      refine ⟨?_, ?_, ?_⟩
      · intro i
        simp only [execute, hst, Bool.false_eq_true, if_false]
        exact filter_passIndex_le_one hnd i
      · simp only [execute, hst, Bool.false_eq_true, if_false]
        have hlen : arts.length = (arts.map fun a => a.passIndex).length :=
          (List.length_map _ _).symm
        have := nodup_mem_passes_length hnd (fun x hx => by
          rcases List.mem_map.mp hx with ⟨a, ha, rfl⟩
          exact hmem a ha)
        simpa [maxPasses] using hlen ▸ this
      · intro i k d hstore
        exact absurd hstore (by simp)
  | true =>
      have hnd2 : ((execute env q arts).artifacts.map fun a => a.passIndex).Nodup := by
        simp only [execute, hst, if_true]
        exact execFrom_nodup env q passes arts hnd
      refine ⟨fun i => filter_passIndex_le_one hnd2 i, ?_, ?_⟩
      · have hsub : ∀ x ∈ ((execute env q arts).artifacts.map fun a => a.passIndex),
            x ∈ passes := by
          intro x hx
          simp only [execute, hst, if_true] at hx
          have := execFrom_indices_subset env q passes arts x hx
          rcases List.mem_append.mp this with h | h
          · rcases List.mem_map.mp h with ⟨a, ha, rfl⟩
            exact hmem a ha
          · exact h
        have := nodup_mem_passes_length hnd2 hsub
        rw [List.length_map] at this
        simpa [maxPasses] using this
      · intro i k d _ hi hnone hout
        refine ⟨(execStage env i).1, ?_, execStage_passIndex env i, ?_, ?_⟩
        · simp only [execute, hst, if_true]
          exact execFrom_mem env q passes arts i hi hnone
        · rw [execStage_failure env i k d hout]
        · rw [execStage_failure env i k d hout]

/-- Sample output text for witness runs. -/
def wText : String := "a draft answer"

/-- Sample query for witness runs. -/
def wQuery : String := "Explain quantum computing"

/-- Sample crash exit-code detail. -/
def wDetail : String := "1"

/-- Witness environment: stages 1 and 3 succeed, stage 2 crashes with exit
code 1, the store works, no streamed chunks. -/
def envW : Env :=
  ⟨fun i => if i = 2 then .failure .providerCrash wDetail else .success wText,
    fun _ => [], true⟩

/-- Witness for C1: fresh run against `envW`. -/
theorem artifact_uniqueness_witness :
    ((execute envW wQuery []).artifacts.filter fun a => a.passIndex == 2).length ≤ 1
    ∧ (execute envW wQuery []).artifacts.length ≤ maxPasses
    ∧ (∃ a, a ∈ (execute envW wQuery []).artifacts ∧ a.passIndex = 2
        ∧ a.text = "" ∧ a.error = some (errString .providerCrash wDetail)) := by
  have h := artifact_uniqueness envW wQuery [] (by simp) (by simp)
  exact ⟨h.1 2, h.2.1, h.2.2 2 .providerCrash wDetail rfl (by decide) rfl rfl⟩

/-- Claim C2: `execute` is idempotent at stage granularity — the stages whose
prompts are built (and whose attempts run) are exactly the stages with no
recorded artifact; recorded stages, errored ones included, are skipped and
kept unchanged as a prefix of the result. -/
theorem execute_idempotent (env : Env) (q : String) (arts : List Artifact)
    (hstore : env.storeOk = true) :
    ((execute env q arts).promptLog.map Prod.fst
        = passes.filter fun i => (findArtifact arts i).isNone)
    ∧ (∀ i, (findArtifact arts i).isSome → i ∉ (execute env q arts).promptLog.map Prod.fst)
    ∧ (∃ extra, (execute env q arts).artifacts = arts ++ extra
        ∧ extra.map (fun a => a.passIndex)
            = passes.filter fun i => (findArtifact arts i).isNone) := by
  have hlog : (execute env q arts).promptLog.map Prod.fst
      = passes.filter fun i => (findArtifact arts i).isNone := by
    simp only [execute, hstore, if_true]
    exact execFrom_log env q passes (by decide) arts
  refine ⟨hlog, ?_, ?_⟩
  · intro i hsome hmem
    rw [hlog] at hmem
    have hnone := List.of_mem_filter hmem
    rw [Option.isNone_iff_eq_none] at hnone
    rw [hnone] at hsome
    exact absurd hsome (by simp)
  · obtain ⟨extra, h1, h2⟩ := execFrom_arts env q passes arts
    refine ⟨extra, ?_, ?_⟩
    · simp only [execute, hstore, if_true]
      exact h1
    · rw [h2]
      exact execFrom_log env q passes (by decide) arts

/-- The empty string. -/
def emptyStr : String := ""

/-- Witness artifact for pass 1 (successful draft). -/
def wArt1 : Artifact := ⟨1, roleOf 1, wText, none⟩

/-- Witness artifact for pass 2 (timed-out refine, recorded with an error). -/
def wArt2 : Artifact := ⟨2, roleOf 2, emptyStr, some (errString .timeout wDetail)⟩

/-- Witness for C2: re-invoking `execute` on a run holding artifacts for
passes 1 and 2 (pass 2 errored) executes only pass 3, without retrying the
errored pass. -/
theorem execute_idempotent_witness :
    (execute envW wQuery [wArt1, wArt2]).promptLog.map Prod.fst = [3]
    ∧ 2 ∉ (execute envW wQuery [wArt1, wArt2]).promptLog.map Prod.fst := by
  have h := execute_idempotent envW wQuery [wArt1, wArt2] rfl
  exact ⟨h.1.trans (by decide), h.2.1 2 (by decide)⟩

/-- The prefix of the crash marker before the exit code. -/
def crashPre : String := "provider process exited unexpectedly ("

/-- The `exitcode=` fragment of the crash error string. -/
def exitcodeStr : String := "exitcode="

/-- Closing parenthesis of the crash error string. -/
def closeParen : String := ")"

/-- A crash error string contains `exitcode=` followed by the exit code. -/
theorem errString_crash_contains (d : String) :
    strContains (errString .providerCrash d) (exitcodeStr ++ d) := by
  have hm : failureMarker .providerCrash = crashPre ++ exitcodeStr := by decide
  refine ⟨crashPre.data, closeParen.data, ?_⟩
  simp [errString, hm, closeParen, String.data_append]

/-- Claim C5: a run reaches `failed` exactly when the store is unavailable; with
a working store the run completes even when individual stages fail, and a
stage-2 provider crash with exit code `d` leaves an artifact whose error
string contains `exitcode=` followed by `d`. -/
theorem run_failure_semantics (env : Env) (q : String) (arts : List Artifact) :
    ((execute env q arts).status = statusFailed ↔ env.storeOk = false)
    ∧ (env.storeOk = true → (execute env q arts).status = statusCompleted)
    ∧ (∀ d, env.storeOk = true → env.outcome 2 = .failure .providerCrash d →
        findArtifact arts 2 = none →
        ∃ a, a ∈ (execute env q arts).artifacts ∧ a.passIndex = 2
          ∧ ∃ s, a.error = some s ∧ strContains s (exitcodeStr ++ d)) := by
  refine ⟨?_, ?_, ?_⟩
  · cases hs : env.storeOk <;> simp [execute, hs] <;> decide
  · intro hs
    simp [execute, hs]
  · intro d hs hout hnone
    refine ⟨(execStage env 2).1, ?_, execStage_passIndex env 2, ?_⟩
    · simp only [execute, hs, if_true]
      exact execFrom_mem env q passes arts 2 (by decide) hnone
    · rw [execStage_failure env 2 .providerCrash d hout]
      exact ⟨errString .providerCrash d, rfl, errString_crash_contains d⟩

/-- The string `exitcode=1`. -/
def exitcodeOne : String := "exitcode=1"

/-- Witness for C5: `envW` crashes stage 2 with exit code 1; the run
completes and the error of artifact 2 mentions `exitcode=1`. -/
theorem run_failure_semantics_witness :
    (execute envW wQuery []).status = statusCompleted
    ∧ (∃ a, a ∈ (execute envW wQuery []).artifacts ∧ a.passIndex = 2
        ∧ ∃ s, a.error = some s ∧ strContains s exitcodeOne) := by
  have h := run_failure_semantics envW wQuery []
  refine ⟨h.2.1 rfl, ?_⟩
  have hx : exitcodeOne = exitcodeStr ++ wDetail := by decide
  rw [hx]
  exact h.2.2 wDetail rfl rfl rfl

/-! ## Claim theorems: sandbox and scoring -/

/-- Claim C7: a sandboxed call whose duration exceeds the configured wall-clock
timeout yields the structured value `Failure{kind=Timeout}` at
`timeout + SANDBOX_OVERHEAD`; no sandboxed call ever occupies the
orchestrator longer than `timeout + SANDBOX_OVERHEAD`. -/
theorem sandbox_timeout_bound (call : AdapterCall) (t : Nat)
    (h : t < call.duration) :
    (run_isolated call t).outcome = .failure .timeout (toString t)
    ∧ (run_isolated call t).elapsed = t + SANDBOX_OVERHEAD
    ∧ (∀ c u, (run_isolated c u).elapsed ≤ u + SANDBOX_OVERHEAD) := by
  refine ⟨by simp [run_isolated, h], by simp [run_isolated, h], ?_⟩
  intro c u
  by_cases hc : u < c.duration
  · simp [run_isolated, hc]
  · rw [not_lt] at hc
    cases hr : c.returns <;> simp [run_isolated, not_lt.mpr hc, hr] <;> omega

/-- A witness adapter call of duration 5. -/
def wCall : AdapterCall := ⟨5, some wText, 0⟩

/-- Witness for C7: a 5-unit call against a 3-unit timeout. -/
theorem sandbox_timeout_bound_witness :
    (run_isolated wCall 3).outcome = .failure .timeout (toString 3)
    ∧ (run_isolated wCall 3).elapsed = 3 + SANDBOX_OVERHEAD := by
  have h := sandbox_timeout_bound wCall 3 (by decide)
  exact ⟨h.1, h.2.1⟩

/-- Claim C8: with positive weights summing to one and dimension values inside
the unit interval, `Score.total` lies in [0,1]; the null dimensions are
excluded, the divisor is never zero, the renormalized weights of the
dimensions in use sum to 1, and the total times the used weight recovers
the weighted sum of the non-null dimensions. -/
theorem score_total_spec (w : ScoreWeights) (d : ScoreDims)
    (hwa : 0 < w.alignment) (hwc : 0 < w.completeness)
    (hws : 0 < w.consensus) (hwf : 0 < w.factual)
    (hsum : w.alignment + w.completeness + w.consensus + w.factual = 1)
    (ha0 : 0 ≤ d.alignment) (ha1 : d.alignment ≤ 1)
    (hc0 : 0 ≤ d.completeness) (hc1 : d.completeness ≤ 1)
    (hcons : ∀ x, d.consensus = some x → 0 ≤ x ∧ x ≤ 1)
    (hfact : ∀ x, d.factual = some x → 0 ≤ x ∧ x ≤ 1) :
    usedWeight w d ≠ 0
    ∧ (0 ≤ scoreTotal w d ∧ scoreTotal w d ≤ 1)
    ∧ (w.alignment + w.completeness + optWeight w.consensus d.consensus
        + optWeight w.factual d.factual) / usedWeight w d = 1
    ∧ scoreTotal w d * usedWeight w d = weightedSum w d := by
  have hwcons : 0 ≤ optWeight w.consensus d.consensus := by
    cases d.consensus <;> simp [optWeight] <;> linarith
  have hwfact : 0 ≤ optWeight w.factual d.factual := by
    cases d.factual <;> simp [optWeight] <;> linarith
  have hupos : 0 < usedWeight w d := by
    rw [usedWeight]
    linarith
  have hne : usedWeight w d ≠ 0 := ne_of_gt hupos
  have hnum0 : 0 ≤ weightedSum w d := by
    rw [weightedSum]
    have h1 : 0 ≤ w.alignment * d.alignment := mul_nonneg (le_of_lt hwa) ha0
    have h2 : 0 ≤ w.completeness * d.completeness := mul_nonneg (le_of_lt hwc) hc0
    have h3 : 0 ≤ optContrib w.consensus d.consensus := by
      cases hoc : d.consensus with
      | none => simp [optContrib]
      | some x =>
          obtain ⟨hx0, _⟩ := hcons x hoc
          simpa [optContrib] using mul_nonneg (le_of_lt hws) hx0
    have h4 : 0 ≤ optContrib w.factual d.factual := by
      cases hof : d.factual with
      | none => simp [optContrib]
      | some x =>
          obtain ⟨hx0, _⟩ := hfact x hof
          simpa [optContrib] using mul_nonneg (le_of_lt hwf) hx0
    linarith
  have hnumle : weightedSum w d ≤ usedWeight w d := by
    rw [weightedSum, usedWeight]
    have h1 : w.alignment * d.alignment ≤ w.alignment :=
      mul_le_of_le_one_right (le_of_lt hwa) ha1
    have h2 : w.completeness * d.completeness ≤ w.completeness :=
      mul_le_of_le_one_right (le_of_lt hwc) hc1
    have h3 : optContrib w.consensus d.consensus ≤ optWeight w.consensus d.consensus := by
      cases hoc : d.consensus with
      | none => simp [optContrib, optWeight]
      | some x =>
          obtain ⟨_, hx1⟩ := hcons x hoc
          simpa [optContrib, optWeight] using mul_le_of_le_one_right (le_of_lt hws) hx1
    have h4 : optContrib w.factual d.factual ≤ optWeight w.factual d.factual := by
      cases hof : d.factual with
      | none => simp [optContrib, optWeight]
      | some x =>
          obtain ⟨_, hx1⟩ := hfact x hof
          simpa [optContrib, optWeight] using mul_le_of_le_one_right (le_of_lt hwf) hx1
    linarith
  refine ⟨hne, ⟨?_, ?_⟩, ?_, ?_⟩
  · exact div_nonneg hnum0 (le_of_lt hupos)
  · rw [scoreTotal]
    exact (div_le_one hupos).mpr hnumle
  · rw [← usedWeight]
    exact div_self hne
  · rw [scoreTotal]
    exact div_mul_cancel₀ _ hne

/-- Witness weights: one quarter each. -/
def wWeights : ScoreWeights := ⟨1/4, 1/4, 1/4, 1/4⟩

/-- Witness dimensions: consensus null, factual accuracy present. -/
def wDims : ScoreDims := ⟨1/2, 1/2, none, some (3/4)⟩

/-- Witness for C8 at concrete weights and dimensions. -/
theorem score_total_spec_witness :
    usedWeight wWeights wDims ≠ 0
    ∧ (0 ≤ scoreTotal wWeights wDims ∧ scoreTotal wWeights wDims ≤ 1)
    ∧ (wWeights.alignment + wWeights.completeness
        + optWeight wWeights.consensus wDims.consensus
        + optWeight wWeights.factual wDims.factual) / usedWeight wWeights wDims = 1
    ∧ scoreTotal wWeights wDims * usedWeight wWeights wDims = weightedSum wWeights wDims :=
  score_total_spec wWeights wDims (by norm_num [wWeights]) (by norm_num [wWeights])
    (by norm_num [wWeights]) (by norm_num [wWeights]) (by norm_num [wWeights])
    (by norm_num [wDims]) (by norm_num [wDims]) (by norm_num [wDims]) (by norm_num [wDims])
    (by intro x hx; simp [wDims] at hx)
    (by intro x hx; simp [wDims] at hx; rw [← hx]; norm_num)

/-! ## Claim theorems: prompt chaining -/

/-- Claim C3: when stage A succeeds, the prompt of stage B is the Refine
template around the original query and the exact output text of stage A,
which it therefore contains as a substring; likewise the prompt of stage C
embeds the output of stage B when stage B succeeded. -/
theorem chained_prompts (env : Env) (q tA tB : String)
    (hstore : env.storeOk = true)
    (h1 : env.outcome 1 = .success tA)
    (h2 : env.outcome 2 = .success tB) :
    (2, refinePrompt q tA) ∈ (execute env q []).promptLog
    ∧ strContains (refinePrompt q tA) tA
    ∧ (3, validatePrompt q tB) ∈ (execute env q []).promptLog
    ∧ strContains (validatePrompt q tB) tB := by
  have ha1 : (execStage env 1).1 = ⟨1, roleOf 1, tA, none⟩ := by simp [execStage, h1]
  have ha2 : (execStage env 2).1 = ⟨2, roleOf 2, tB, none⟩ := by simp [execStage, h2]
  have hp2 : stagePrompt q [⟨1, roleOf 1, tA, none⟩] 2 = refinePrompt q tA := by
    simp [stagePrompt, stageInput, findArtifact, List.find?, buildPrompt]
  have hp3 : stagePrompt q [⟨1, roleOf 1, tA, none⟩, ⟨2, roleOf 2, tB, none⟩] 3
      = validatePrompt q tB := by
    simp [stagePrompt, stageInput, findArtifact, List.find?, buildPrompt]
  have hlog : (execute env q []).promptLog
      = [(1, stagePrompt q [] 1), (2, refinePrompt q tA), (3, validatePrompt q tB)] := by
    simp [execute, hstore, passes, execFrom, findArtifact, List.find?, ha1, ha2, hp2, hp3]
  refine ⟨?_, ?_, ?_, ?_⟩
  · rw [hlog]; simp
  · unfold refinePrompt
    exact strContains_append_mid _ tA _
  · rw [hlog]; simp
  · unfold validatePrompt
    exact strContains_append_mid _ tB _

/-- Witness environment where every stage succeeds. -/
def envS : Env := ⟨fun _ => .success wText, fun _ => [], true⟩

/-- Witness for C3 on an all-success run. -/
theorem chained_prompts_witness :
    (2, refinePrompt wQuery wText) ∈ (execute envS wQuery []).promptLog
    ∧ strContains (refinePrompt wQuery wText) wText
    ∧ (3, validatePrompt wQuery wText) ∈ (execute envS wQuery []).promptLog
    ∧ strContains (validatePrompt wQuery wText) wText :=
  chained_prompts envS wQuery wText wText rfl rfl rfl

/-- Each structured error string starts with its failure-class marker. -/
theorem errString_marker (k : FailureKind) (d : String) :
    strContains (errString k d) (failureMarker k) := by
  cases k with
  | timeout =>
      refine ⟨[], (d ++ "s").data, ?_⟩
      simp [errString, String.data_append]
  | providerCrash =>
      refine ⟨[], (d ++ ")").data, ?_⟩
      simp [errString, String.data_append]
  | credentialError =>
      refine ⟨[], d.data, ?_⟩
      simp [errString, String.data_append]

/-- Claim C4: when the artifact of stage A carries an error, the prompt of
stage B is built
from the original query — it contains the (non-empty) query, is itself
non-empty, does not contain the error string of stage A (granted the query does
not smuggle in the error marker), and the pipeline proceeds through all
three stages to a completed run. -/
theorem degraded_fallback (env : Env) (q : String) (k : FailureKind) (d : String)
    (arts : List Artifact) (a : Artifact)
    (hq : q ≠ emptyStr)
    (hfound : findArtifact arts 1 = some a)
    (herr : a.error = some (errString k d))
    (hm : ¬ strContains (refinePrompt q q) (failureMarker k))
    (hstore : env.storeOk = true)
    (h1 : env.outcome 1 = .failure k d) :
    stagePrompt q arts 2 = refinePrompt q q
    ∧ strContains (refinePrompt q q) q
    ∧ refinePrompt q q ≠ emptyStr
    ∧ ¬ strContains (refinePrompt q q) (errString k d)
    ∧ (2, refinePrompt q q) ∈ (execute env q []).promptLog
    ∧ (execute env q []).promptLog.map Prod.fst = passes
    ∧ (execute env q []).status = statusCompleted := by
  have ha1 := execStage_failure env 1 k d h1
  have hp2 : stagePrompt q [⟨1, roleOf 1, "", some (errString k d)⟩] 2
      = refinePrompt q q := by
    simp [stagePrompt, stageInput, findArtifact, List.find?, buildPrompt]
  refine ⟨?_, ?_, ?_, ?_, ?_, ?_, ?_⟩
  · simp [stagePrompt, stageInput, hfound, herr, buildPrompt]
  · refine ⟨refineHead.data, (refineMid ++ q ++ refineTail).data, ?_⟩
    simp [refinePrompt, String.data_append]
  · intro h0
    have hlen : (refinePrompt q q).length = 0 := by
      rw [h0]; rfl
    have hpos : 0 < refineHead.length := by decide
    simp [refinePrompt, String.length_append] at hlen
    omega
  · intro hcon
    exact hm (strContains_trans (errString_marker k d) hcon)
  · have hlog : (execute env q []).promptLog
        = [(1, stagePrompt q [] 1), (2, refinePrompt q q),
           (3, stagePrompt q [⟨1, roleOf 1, "", some (errString k d)⟩,
             (execStage env 2).1] 3)] := by
      simp [execute, hstore, passes, execFrom, findArtifact, List.find?, ha1, hp2]
    rw [hlog]
    simp
  · simp only [execute, hstore, if_true]
    rw [execFrom_log env q passes (by decide) []]
    decide
  · simp [execute, hstore]

/-- The timeout detail used in the degraded-mode witness (30 seconds). -/
def wTimeoutD : String := "30"

/-- Witness environment where stage A times out and the rest succeed. -/
def envF : Env :=
  ⟨fun i => if i = 1 then .failure .timeout wTimeoutD else .success wText,
    fun _ => [], true⟩

/-- The recorded artifact of the timed-out stage A. -/
def wArtErr : Artifact := ⟨1, roleOf 1, emptyStr, some (errString .timeout wTimeoutD)⟩

set_option maxRecDepth 8000 in
/-- Witness for C4: stage A timed out after 30s; the prompt of stage B falls
back to the original query and the run completes. -/
theorem degraded_fallback_witness :
    stagePrompt wQuery [wArtErr] 2 = refinePrompt wQuery wQuery
    ∧ strContains (refinePrompt wQuery wQuery) wQuery
    ∧ refinePrompt wQuery wQuery ≠ emptyStr
    ∧ ¬ strContains (refinePrompt wQuery wQuery) (errString .timeout wTimeoutD)
    ∧ (2, refinePrompt wQuery wQuery) ∈ (execute envF wQuery []).promptLog
    ∧ (execute envF wQuery []).promptLog.map Prod.fst = passes
    ∧ (execute envF wQuery []).status = statusCompleted :=
  degraded_fallback envF wQuery .timeout wTimeoutD [wArtErr] wArtErr (by decide) rfl rfl
    (by decide) rfl rfl

/-! ## Claim theorems: event ordering -/

/-- Whether a stage outcome is a credential-resolution failure (for which
no model call is attempted, hence no streamed chunks). -/
def credFail : StageOutcome → Bool
  | .failure .credentialError _ => true
  | _ => false

/-- Three constant blocks with increasing values are weakly sorted. -/
theorem pairwise_replicate_three (n1 n2 n3 : Nat) :
    List.Pairwise (· ≤ ·)
      ((List.replicate n1 1 ++ (List.replicate n2 2 ++ List.replicate n3 3)) : List Nat) := by
  rw [List.pairwise_append]
  refine ⟨pairwise_replicate_le _ _, ?_, ?_⟩
  · rw [List.pairwise_append]
    refine ⟨pairwise_replicate_le _ _, pairwise_replicate_le _ _, ?_⟩
    intro a ha b hb
    have h1 := List.eq_of_mem_replicate ha
    have h2 := List.eq_of_mem_replicate hb
    omega
  · intro a ha b hb
    have h1 := List.eq_of_mem_replicate ha
    rcases List.mem_append.mp hb with h | h
    · have h2 := List.eq_of_mem_replicate h
      omega
    · have h2 := List.eq_of_mem_replicate h
      omega

/-- Composed form of chunk transparency. -/
theorem filterMap_chunkText_comp (i : Nat) (xs : List String) :
    xs.filterMap (chunkText ∘ Event.chunk i) = xs := by
  induction xs with
  | nil => rfl
  | cons x xs ih => simp [List.filterMap_cons, Function.comp, chunkText, ih]

/-- Per-stage block properties: phases are weakly sorted, exactly one
terminal event is published, and the chunk events reproduce the arrival
order (none for a credential failure, which attempts no call). -/
theorem stage_block_props (env : Env) (i : Nat) :
    List.Sorted (· ≤ ·) (((execStage env i).2).map phase)
    ∧ (((execStage env i).2).filter isTerminal).length = 1
    ∧ ((execStage env i).2).filterMap chunkText
        = (if credFail (env.outcome i) then [] else env.chunks i) := by
  rcases ho : env.outcome i with t | ⟨k, d⟩
  · refine ⟨?_, ?_, ?_⟩
    · simp only [execStage, ho, List.map_append, map_phase_chunks, List.map_cons,
        List.map_nil, phase, List.cons_append, List.nil_append, List.append_assoc]
      exact pairwise_phase_block _ _ (by decide) (by decide)
    · simp [execStage, ho, isTerminal, List.filter_append, filter_isTerminal_map]
    · simp [execStage, ho, chunkText, List.filterMap_append, filterMap_chunkText_map, filterMap_chunkText_comp, credFail]
  · cases k
    case timeout =>
        refine ⟨?_, ?_, ?_⟩
        · simp only [execStage, ho, List.map_append, map_phase_chunks, List.map_cons,
            List.map_nil, phase, List.cons_append, List.nil_append, List.append_assoc]
          exact pairwise_phase_block _ _ (by decide) (by decide)
        · simp [execStage, ho, isTerminal, List.filter_append, filter_isTerminal_map]
        · simp [execStage, ho, chunkText, List.filterMap_append, filterMap_chunkText_map,
            filterMap_chunkText_comp, credFail]
    case providerCrash =>
        refine ⟨?_, ?_, ?_⟩
        · simp only [execStage, ho, List.map_append, map_phase_chunks, List.map_cons,
            List.map_nil, phase, List.cons_append, List.nil_append, List.append_assoc]
          exact pairwise_phase_block _ _ (by decide) (by decide)
        · simp [execStage, ho, isTerminal, List.filter_append, filter_isTerminal_map]
        · simp [execStage, ho, chunkText, List.filterMap_append, filterMap_chunkText_map,
            filterMap_chunkText_comp, credFail]
    case credentialError =>
        refine ⟨?_, ?_, ?_⟩
        · simp [execStage, ho, phase]
        · simp [execStage, ho, isTerminal]
        · simp [execStage, ho, chunkText, credFail]

/-- Claim C6: for every pass of a fresh run, the published events follow
`planned` before `started` before the chunk events (reproduced in arrival
order) before exactly one of `created`/`error`, with `score.started` before
`score.created` when scoring happens; across passes, events appear in pass
order because the stages run strictly sequentially. -/
theorem event_order (env : Env) (q : String) (hstore : env.storeOk = true)
    (i : Nat) (hi : i ∈ passes) :
    List.Sorted (· ≤ ·) ((passEvents (execute env q []).events i).map phase)
    ∧ ((passEvents (execute env q []).events i).filter isTerminal).length = 1
    ∧ ((passEvents (execute env q []).events i).filterMap chunkText
        = if credFail (env.outcome i) then [] else env.chunks i)
    ∧ List.Sorted (· ≤ ·) ((execute env q []).events.filterMap eventPass) := by
  obtain ⟨hs, ht, hc⟩ := stage_block_props env i
  rw [passEvents_runFresh env q hstore i hi]
  refine ⟨hs, ht, hc, ?_⟩
  rw [runFresh_events env q hstore]
  have hrs : eventPass Event.runStarted = none := rfl
  have hrc : eventPass Event.runCompleted = none := rfl
  have e1 := filterMap_eventPass_const 1 _ (execStage_events_pass env 1)
  have e2 := filterMap_eventPass_const 2 _ (execStage_events_pass env 2)
  have e3 := filterMap_eventPass_const 3 _ (execStage_events_pass env 3)
  simp only [List.filterMap_cons, List.filterMap_append, List.filterMap_nil, hrs, hrc,
    e1, e2, e3, List.append_nil]
  exact pairwise_replicate_three _ _ _

/-- Witness for C6: pass 1 of an all-success run. -/
theorem event_order_witness :
    List.Sorted (· ≤ ·) ((passEvents (execute envS wQuery []).events 1).map phase)
    ∧ ((passEvents (execute envS wQuery []).events 1).filter isTerminal).length = 1
    ∧ ((passEvents (execute envS wQuery []).events 1).filterMap chunkText
        = if credFail (envS.outcome 1) then [] else envS.chunks 1)
    ∧ List.Sorted (· ≤ ·) ((execute envS wQuery []).events.filterMap eventPass) :=
  event_order envS wQuery rfl 1 (by decide)
